import Mathlib

/-
Verification of the algo-trader position-lifecycle engine.

Shallow embedding of the Python sources:
  src/simulated_wallet.py  (SimulatedWallet: balance / margin ledger)
  src/order_manager.py     (OrderManager: sizing, TP/SL pricing, open path)
  src/position_manager.py  (PositionManager: TP/SL hit checks, trailing stop)
  src/trading_bot.py       (TradingBot: trading cycle, signal scan)
  src/indicators.py        (TechnicalIndicators: RSI fallback implementation)

Python floats are modelled as rationals; a Python runtime exception that the
source catches (returning None / 0.0) is modelled by the explicit value the
handler returns.  Dicts keyed by position id are modelled as association
lists with dict upsert/delete semantics.
-/

namespace AlgoTrader

/-- Side of a position: the source uses the strings "long" and "short";
every position created by the open path carries one of the two. -/
inductive Side where
  | long
  | short
deriving DecidableEq, Repr

/-- Entries of SimulatedWallet.data, key "trade_history": an "open" record
(src/simulated_wallet.py lines 145-154) or a "close" record (lines 227-239).
Timestamps are omitted (wall clock). -/
inductive TradeRecord where
  | openRec (position_id pair : String) (side : Side) (price size margin : ℚ)
  | closeRec (position_id pair : String) (side : Side)
      (entry_price close_price size pnl pnl_percent : ℚ) (reason : String)
deriving DecidableEq, Repr

/-- A position dict as created by SimulatedWallet.open_position
(src/simulated_wallet.py lines 125-140).  The "status" key is always
"open" while the position is in the open set, and the opened_at timestamp
is omitted (wall clock). -/
structure Position where
  position_id : String
  pair : String
  side : Side
  entry_price : ℚ
  current_price : ℚ
  size : ℚ
  margin : ℚ
  leverage : ℚ
  stop_loss : ℚ
  take_profit : ℚ
  pnl : ℚ
  pnl_percent : ℚ
deriving DecidableEq, Repr

/-- SimulatedWallet.data (src/simulated_wallet.py lines 41-50).  The
"positions" dict is modelled as an association list ordered by insertion,
matching Python dict semantics. -/
structure Wallet where
  initial_balance : ℚ
  balance : ℚ
  locked_margin : ℚ
  total_pnl : ℚ
  positions : List Position
  trade_history : List TradeRecord
deriving DecidableEq, Repr

/-- A freshly created wallet (src/simulated_wallet.py lines 41-50). -/
def freshWallet (initial_balance : ℚ) : Wallet :=
  { initial_balance := initial_balance
    balance := initial_balance
    locked_margin := 0
    total_pnl := 0
    positions := []
    trade_history := [] }

/-- Dict insertion `positions[position_id] = position`: overwrite the entry
with the same key in place, else append at the end. -/
def upsert (p : Position) : List Position → List Position
  | [] => [p]
  | q :: qs => if q.position_id = p.position_id then p :: qs else q :: upsert p qs

/-- Dict deletion `del positions[position_id]`: removes the (unique) entry
with the given key. -/
def eraseId (pid : String) : List Position → List Position
  | [] => []
  | q :: qs => if q.position_id = pid then qs else q :: eraseId pid qs

/-- Dict lookup `positions[position_id]` / membership test. -/
def findPos (w : Wallet) (pid : String) : Option Position :=
  w.positions.find? (fun p => p.position_id = pid)

/-- Realized / unrealized P&L by side, as computed at
src/simulated_wallet.py lines 183-186 and 216-219:
long means (price − entry) × size, short means (entry − price) × size. -/
def sidePnl (side : Side) (entry size price : ℚ) : ℚ :=
  match side with
  | .long => (price - entry) * size
  | .short => (entry - price) * size

/-- SimulatedWallet.open_position (src/simulated_wallet.py lines 96-168).
Returns the bool result together with the wallet after the call; the
failure branch returns before any mutation. -/
def open_position (w : Wallet) (position_id pair : String) (side : Side)
    (entry_price size margin : ℚ) (leverage : ℚ)
    (stop_loss take_profit : ℚ) : Bool × Wallet :=
  if w.balance < margin then
    (false, w)
  else
    let pos : Position :=
      { position_id := position_id
        pair := pair
        side := side
        entry_price := entry_price
        current_price := entry_price
        size := size
        margin := margin
        leverage := leverage
        stop_loss := stop_loss
        take_profit := take_profit
        pnl := 0
        pnl_percent := 0 }
    (true,
      { w with
          balance := w.balance - margin
          locked_margin := w.locked_margin + margin
          positions := upsert pos w.positions
          trade_history := w.trade_history ++
            [TradeRecord.openRec position_id pair side entry_price size margin] })

/-- SimulatedWallet.update_position_price (src/simulated_wallet.py lines
170-191): if the id is absent, return unchanged; otherwise set the
position's current_price, pnl and pnl_percent. -/
def update_position_price (w : Wallet) (position_id : String)
    (current_price : ℚ) : Wallet :=
  if w.positions.all (fun p => p.position_id ≠ position_id) then w
  else
    { w with
        positions := w.positions.map (fun p =>
          if p.position_id = position_id then
            let pnl := sidePnl p.side p.entry_price p.size current_price
            { p with
                current_price := current_price
                pnl := pnl
                pnl_percent := if p.margin > 0 then pnl / p.margin * 100 else 0 }
          else p) }

/-- Result dict returned by SimulatedWallet.close_position
(src/simulated_wallet.py lines 242-245): a copy of the position plus the
close price, final P&L and close reason. -/
structure CloseResult where
  position : Position
  close_price : ℚ
  final_pnl : ℚ
  close_reason : String
deriving DecidableEq, Repr

/-- SimulatedWallet.close_position (src/simulated_wallet.py lines 193-262).
Returns the optional result dict together with the wallet after the call;
an unknown id returns None without mutation. -/
def close_position (w : Wallet) (position_id : String) (close_price : ℚ)
    (reason : String) : Option CloseResult × Wallet :=
  match findPos w position_id with
  | none => (none, w)
  | some position =>
    let pnl := sidePnl position.side position.entry_price position.size close_price
    let rec_pct : ℚ := if position.margin > 0 then pnl / position.margin * 100 else 0
    (some { position := position
            close_price := close_price
            final_pnl := pnl
            close_reason := reason },
      { w with
          locked_margin := w.locked_margin - position.margin
          balance := w.balance + position.margin + pnl
          total_pnl := w.total_pnl + pnl
          trade_history := w.trade_history ++
            [TradeRecord.closeRec position_id position.pair position.side
              position.entry_price close_price position.size pnl rec_pct reason]
          positions := eraseId position_id w.positions })

/-- SimulatedWallet.has_position_for_pair (src/simulated_wallet.py lines
272-277). -/
def has_position_for_pair (w : Wallet) (pair : String) : Bool :=
  w.positions.any (fun p => p.pair = pair)

/-- Sum of the margins of the currently open positions. -/
def sumMargins (l : List Position) : ℚ :=
  (l.map Position.margin).sum

/-- Risk-management configuration (the risk_config dict read by
OrderManager and PositionManager, keys per src/config.py). -/
structure RiskConfig where
  leverage : ℚ
  max_position_size_percent : ℚ
  take_profit_percent : ℚ
  stop_loss_percent : ℚ
  use_atr_stop_loss : Bool
  atr_stop_loss_multiplier : ℚ
  atr_take_profit_multiplier : ℚ
  trailing_stop : Bool
  trailing_stop_percent : ℚ
deriving DecidableEq, Repr

/-- OrderManager.calculate_position_size (src/order_manager.py lines
33-63): max_position_value = balance × max_position_percent/100, then
size = max_position_value × leverage / current_price.  The source catches
exceptions and returns 0.0; with rationals, division by a zero price
yields 0 as well. -/
def calculate_position_size (balance current_price leverage
    max_position_percent : ℚ) : ℚ :=
  balance * (max_position_percent / 100) * leverage / current_price

/-- Condition for ATR mode in OrderManager.calculate_tp_sl_prices
(src/order_manager.py line 82): use_atr_stop_loss configured, ATR value
supplied and strictly positive. -/
def atrUsable (cfg : RiskConfig) (atr_value : Option ℚ) : Bool :=
  cfg.use_atr_stop_loss &&
    match atr_value with
    | some a => decide (0 < a)
    | none => false

/-- OrderManager.calculate_tp_sl_prices (src/order_manager.py lines
65-125), returning (take_profit, stop_loss).  ATR mode when usable,
otherwise the percentage fallback. -/
def calculate_tp_sl_prices (cfg : RiskConfig) (entry_price : ℚ) (side : Side)
    (tp_percent sl_percent : ℚ) (atr_value : Option ℚ) : ℚ × ℚ :=
  if atrUsable cfg atr_value then
    let a := atr_value.getD 0
    let sl_distance := a * cfg.atr_stop_loss_multiplier
    let tp_distance := a * cfg.atr_take_profit_multiplier
    match side with
    | .long => (entry_price + tp_distance, entry_price - sl_distance)
    | .short => (entry_price - tp_distance, entry_price + sl_distance)
  else
    match side with
    | .long => (entry_price * (1 + tp_percent / 100),
        entry_price * (1 - sl_percent / 100))
    | .short => (entry_price * (1 - tp_percent / 100),
        entry_price * (1 + sl_percent / 100))

/-- Result dict of OrderManager.open_position_with_tp_sl
(src/order_manager.py lines 344-356); order/TP/SL order sub-dicts are
dropped (dry-run stubs with no ledger effect). -/
structure OpenResult where
  position_id : String
  entry_price : ℚ
  position_size : ℚ
  take_profit : ℚ
  stop_loss : ℚ
  side : Side
  pair : String
  margin : ℚ
deriving DecidableEq, Repr

/-- OrderManager.open_position_with_tp_sl in dry-run mode
(src/order_manager.py lines 259-371) acting on the simulated wallet.
The adjusted percent is max_position_size_percent × signal_strength; the
market order is simulated (execute_market_order, lines 141-170: rejects
size ≤ 0 or balance ≤ 0, else fills at current_price with a fresh
position id — the uuid is modelled as an id derived from the pair); the
margin is size × entry / leverage; the simulated wallet open may fail on
insufficient balance, in which case None is returned. -/
def open_position_with_tp_sl (cfg : RiskConfig) (pair : String) (side : Side)
    (balance current_price signal_strength : ℚ) (atr_value : Option ℚ)
    (w : Wallet) : Option OpenResult × Wallet :=
  let leverage := cfg.leverage
  let adjusted_percent := cfg.max_position_size_percent * signal_strength
  let position_size := calculate_position_size balance current_price leverage adjusted_percent
  if position_size ≤ 0 then (none, w)
  else if balance ≤ 0 then (none, w)
  else
    let entry_price := current_price
    let tp_sl := calculate_tp_sl_prices cfg entry_price side
      cfg.take_profit_percent cfg.stop_loss_percent atr_value
    let position_id := "sim-pos-" ++ pair
    let margin := position_size * entry_price / leverage
    match open_position w position_id pair side entry_price position_size
        margin leverage tp_sl.2 tp_sl.1 with
    | (false, w1) => (none, w1)
    | (true, w1) =>
      (some { position_id := position_id
              entry_price := entry_price
              position_size := position_size
              take_profit := tp_sl.1
              stop_loss := tp_sl.2
              side := side
              pair := pair
              margin := margin }, w1)

/-- PositionManager.check_tp_sl_hit (src/position_manager.py lines
142-179): for a long, TP fires first when tp > 0 and price ≥ tp, then SL
when sl > 0 and price ≤ sl; short mirrored; else None. -/
def check_tp_sl_hit (position : Position) (current_price : ℚ) : Option String :=
  let tp_price := position.take_profit
  let sl_price := position.stop_loss
  match position.side with
  | .long =>
    if tp_price > 0 ∧ current_price ≥ tp_price then some "TP"
    else if sl_price > 0 ∧ current_price ≤ sl_price then some "SL"
    else none
  | .short =>
    if tp_price > 0 ∧ current_price ≤ tp_price then some "TP"
    else if sl_price > 0 ∧ current_price ≥ sl_price then some "SL"
    else none

/-- PositionManager.update_trailing_stop (src/position_manager.py lines
181-236): None unless trailing stops are enabled; profit percent is
relative to the entry (an entry of 0 raises ZeroDivisionError in the
source, caught and turned into None); a new stop is proposed only when
the profit percent exceeds trailing_stop_percent, and accepted only when
the previous stop is 0 or the new stop tightens it (higher for long,
lower for short). -/
def update_trailing_stop (cfg : RiskConfig) (position : Position)
    (current_price : ℚ) : Option ℚ :=
  if ¬cfg.trailing_stop then none
  else if position.entry_price = 0 then none
  else
    let entry_price := position.entry_price
    let current_sl := position.stop_loss
    let trailing_percent := cfg.trailing_stop_percent
    match position.side with
    | .long =>
      let profit_percent := (current_price - entry_price) / entry_price * 100
      if profit_percent > trailing_percent then
        let new_sl := current_price * (1 - trailing_percent / 100)
        if current_sl = 0 ∨ new_sl > current_sl then some new_sl else none
      else none
    | .short =>
      let profit_percent := (entry_price - current_price) / entry_price * 100
      if profit_percent > trailing_percent then
        let new_sl := current_price * (1 + trailing_percent / 100)
        if current_sl = 0 ∨ new_sl < current_sl then some new_sl else none
      else none

/-- Action carried by a signal dict: the strings "long", "short", "flat"
(src/signal_generator.py / src/trading_bot.py). -/
inductive SigAction where
  | long
  | short
  | flat
deriving DecidableEq, Repr

/-- The fields of a signal dict consumed by TradingBot._evaluate_signal
(src/trading_bot.py lines 374-417): action, strength and the current
price sampled by the signal generator. -/
structure Signal where
  action : SigAction
  strength : ℚ
  current_price : ℚ
deriving DecidableEq, Repr

/-- The trading_params dict read by TradingBot (keys per src/config.py):
signal gating, side enablement and the open-position cap. -/
structure BotParams where
  min_signal_strength : ℚ
  enable_long : Bool
  enable_short : Bool
  max_open_positions : ℕ
deriving DecidableEq, Repr

/-- TradingBot._execute_trade in dry-run mode (src/trading_bot.py lines
419-472): read the available balance from the simulated wallet, abort if
it is ≤ 0, else run the order-manager open path (no ATR value is passed
on this call path). -/
def execute_trade (cfg : RiskConfig) (pair : String) (side : Side)
    (strength current_price : ℚ) (w : Wallet) : Wallet :=
  let available_balance := w.balance
  if available_balance ≤ 0 then w
  else (open_position_with_tp_sl cfg pair side available_balance
    current_price strength none w).2

/-- TradingBot._evaluate_signal (src/trading_bot.py lines 374-417):
reject below the strength floor, reject disabled or flat actions, else
execute the trade. -/
def evaluate_signal (params : BotParams) (cfg : RiskConfig) (pair : String)
    (sig : Signal) (w : Wallet) : Wallet :=
  if sig.strength < params.min_signal_strength then w
  else if sig.action = .long ∧ ¬params.enable_long then w
  else if sig.action = .short ∧ ¬params.enable_short then w
  else
    match sig.action with
    | .flat => w
    | .long => execute_trade cfg pair .long sig.strength sig.current_price w
    | .short => execute_trade cfg pair .short sig.strength sig.current_price w

/-- TradingBot._scan_for_signals in dry-run mode (src/trading_bot.py lines
328-372): iterate the configured pairs in order, skip a pair that already
has an open position in the simulated wallet, otherwise evaluate the
signal the generator produces for it.  The signals are an input here (the
generator reads market data); a pair without a generated signal is
skipped, as in the source.  Note there is no re-check of the open-position
count inside this loop. -/
def scan_for_signals (params : BotParams) (cfg : RiskConfig)
    (signals : List (String × Option Signal)) (w : Wallet) : Wallet :=
  signals.foldl (fun w1 ps =>
    if has_position_for_pair w1 ps.1 then w1
    else
      match ps.2 with
      | none => w1
      | some sig => evaluate_signal params cfg ps.1 sig w1) w

/-- Steps 1, 3 and 4 of TradingBot._trading_cycle in dry-run mode
(src/trading_bot.py lines 153-208).  The balance-health check of step 1
reads the external wallet manager and is modelled by the critical flag;
step 2 (position monitoring) only updates or closes existing positions
and is the identity on a wallet without open positions; step 3 compares
the simulated wallet's open-position count with max_open_positions and
returns without scanning when the cap is reached; step 4 scans for
signals. -/
def trading_cycle (params : BotParams) (cfg : RiskConfig) (critical : Bool)
    (signals : List (String × Option Signal)) (w : Wallet) : Wallet :=
  if critical then w
  else
    let current_positions := w.positions.length
    if current_positions ≥ params.max_open_positions then w
    else scan_for_signals params cfg signals w

/-- Successive price differences of a series, `df[column].diff()` without
the leading NaN: element i is x(i+1) − x(i). -/
def deltas (xs : List ℚ) : List ℚ :=
  List.zipWith (fun a b => b - a) xs xs.tail

/-- Per-bar gain, `delta.where(delta > 0, 0)`.  The leading NaN of diff()
compares false and is replaced by 0, so the gain series starts with 0. -/
def gainOf (d : ℚ) : ℚ := if 0 < d then d else 0

/-- Per-bar loss, `-delta.where(delta < 0, 0)`. -/
def lossOf (d : ℚ) : ℚ := if d < 0 then -d else 0

/-- The gain series aligned with the price series (first element 0). -/
def gains : List ℚ → List ℚ
  | [] => []
  | xs => 0 :: (deltas xs).map gainOf

/-- The loss series aligned with the price series (first element 0). -/
def losses : List ℚ → List ℚ
  | [] => []
  | xs => 0 :: (deltas xs).map lossOf

/-- Wilder smoothing loop of TechnicalIndicators.calculate_rsi
(src/indicators.py lines 164-166): starting from the plain rolling
average, each later average is (prev × (period − 1) + value) / period.
Returns every smoothed average from the seed onwards. -/
def wilderAvgs (period : ℕ) (a : ℚ) : List ℚ → List ℚ
  | [] => [a]
  | g :: gs => a :: wilderAvgs period ((a * ((period : ℚ) - 1) + g) / period) gs

/-- The final RSI formula rs = avg_gain / avg_loss, rsi = 100 − 100 / (1 + rs)
(src/indicators.py lines 168-169), evaluated in IEEE arithmetic by the
source: avg_loss = 0 with avg_gain > 0 gives rs = +inf hence rsi = 100;
avg_loss = 0 = avg_gain gives NaN, modelled as none. -/
def rsiValue (avg_gain avg_loss : ℚ) : Option ℚ :=
  if avg_loss = 0 then
    if avg_gain = 0 then none else some 100
  else some (100 - 100 / (1 + avg_gain / avg_loss))

/-- TechnicalIndicators.calculate_rsi, fallback implementation
(src/indicators.py lines 156-171): rolling mean of gains and losses over
the first window, Wilder smoothing afterwards, then the RSI formula.
Only the defined values (indices ≥ period − 1 of a series of length
≥ period) are returned; a shorter series yields no values, matching the
all-NaN rolling mean. -/
def calculate_rsi (period : ℕ) (xs : List ℚ) : List (Option ℚ) :=
  if xs.length < period ∨ period = 0 then []
  else
    let g := gains xs
    let l := losses xs
    let avg_gain0 := (g.take period).sum / period
    let avg_loss0 := (l.take period).sum / period
    List.zipWith rsiValue
      (wilderAvgs period avg_gain0 (g.drop period))
      (wilderAvgs period avg_loss0 (l.drop period))

/-- Wallet states reachable from a fresh wallet by any sequence of
open_position and close_position calls, where each open uses a position id
not currently in the open set (the source draws ids from uuid4).  Failed
calls leave the wallet unchanged, so successful-call sequences are a
special case. -/
inductive Reachable : Wallet → Prop where
  | init (b : ℚ) : Reachable (freshWallet b)
  | openStep (w : Wallet) (position_id pair : String) (side : Side)
      (entry_price size margin leverage stop_loss take_profit : ℚ)
      (hw : Reachable w)
      (hfresh : ∀ p ∈ w.positions, p.position_id ≠ position_id) :
      Reachable (open_position w position_id pair side entry_price size margin
        leverage stop_loss take_profit).2
  | closeStep (w : Wallet) (position_id : String) (close_price : ℚ)
      (reason : String) (hw : Reachable w) :
      Reachable (close_position w position_id close_price reason).2

/-- Risk configuration used for the concrete trading-cycle run (values of
src/config.py, percentage stop mode, trailing stops off). -/
def cfgC4 : RiskConfig :=
  { leverage := 5, max_position_size_percent := 10, take_profit_percent := 4,
    stop_loss_percent := 2, use_atr_stop_loss := false,
    atr_stop_loss_multiplier := 3/2, atr_take_profit_multiplier := 3,
    trailing_stop := false, trailing_stop_percent := 3/2 }

/-- Trading parameters used for the concrete trading-cycle run: a cap of
one open position. -/
def paramsC4 : BotParams :=
  { min_signal_strength := 7/10, enable_long := true, enable_short := true,
    max_open_positions := 1 }

/-- Two configured pairs, both producing a full-strength long signal at
price 100 in the same cycle. -/
def sigsC4 : List (String × Option Signal) :=
  [("B-BTC_USDT", some { action := .long, strength := 1, current_price := 100 }),
   ("B-ETH_USDT", some { action := .long, strength := 1, current_price := 100 })]

theorem sumMargins_nil : sumMargins [] = 0 := rfl

theorem sumMargins_cons (p : Position) (l : List Position) :
    sumMargins (p :: l) = p.margin + sumMargins l := by
  simp [sumMargins]

theorem sumMargins_upsert_fresh (p : Position) (l : List Position)
    (h : ∀ q ∈ l, q.position_id ≠ p.position_id) :
    sumMargins (upsert p l) = sumMargins l + p.margin := by
  induction l with
  | nil => simp [upsert, sumMargins]
  | cons q qs ih =>
    have hq : ¬q.position_id = p.position_id := h q (List.mem_cons_self q qs)
    rw [upsert, if_neg hq, sumMargins_cons, sumMargins_cons,
      ih (fun r hr => h r (List.mem_cons_of_mem q hr))]
    ring

theorem sumMargins_eraseId (pid : String) (l : List Position) (pos : Position)
    (h : l.find? (fun p => p.position_id = pid) = some pos) :
    sumMargins (eraseId pid l) = sumMargins l - pos.margin := by
  induction l with
  | nil => simp at h
  | cons q qs ih =>
    by_cases hq : q.position_id = pid
    · have hpos : q = pos := by
        rw [List.find?_cons_of_pos _ (by simpa using hq)] at h
        exact Option.some_injective _ h
      rw [eraseId, if_pos hq, sumMargins_cons, hpos]
      ring
    · rw [List.find?_cons_of_neg _ (by simpa using hq)] at h
      rw [eraseId, if_neg hq, sumMargins_cons, sumMargins_cons, ih h]
      ring

/-- C1 (amended): for every wallet reachable by opens and closes from a
fresh wallet, balance + locked_margin equals initial_balance + total_pnl
exactly — the difference is zero whether or not positions are open — and
locked_margin equals the sum of the margins of the currently open
positions, so it is the available balance alone that differs from
initial_balance + total_pnl by exactly that sum. -/
theorem wallet_ledger_invariant (w : Wallet) (hw : Reachable w) :
    w.balance + w.locked_margin = w.initial_balance + w.total_pnl ∧
    w.locked_margin = sumMargins w.positions := by
  induction hw with
  | init b => simp [freshWallet, sumMargins_nil]
  | openStep w pid pair side entry size margin lev sl tp hw hfresh ih =>
    by_cases hb : w.balance < margin
    · simpa [open_position, hb] using ih
    · rw [open_position, if_neg hb]
      refine ⟨?_, ?_⟩
      · simpa [add_sub_cancel, sub_add_add_cancel] using
          (by linarith [ih.1] : w.balance - margin + (w.locked_margin + margin)
            = w.initial_balance + w.total_pnl)
      · simp only []
        rw [sumMargins_upsert_fresh _ _ (by simpa using hfresh), ← ih.2]
  | closeStep w pid price reason hw ih =>
    rcases hfind : findPos w pid with _ | pos
    · simpa [close_position, hfind] using ih
    · rw [close_position, hfind]
      refine ⟨?_, ?_⟩
      · simp only []
        linarith [ih.1]
      · simp only []
        rw [sumMargins_eraseId pid w.positions pos hfind, ← ih.2]

/-- C1 (counterexample to the claim as stated): after one successful open
of margin 100 on a fresh wallet of 1000, balance + locked_margin equals
initial_balance + total_pnl exactly (difference 0), so it does not differ
from it by the sum of the open margins, which is 100. -/
theorem wallet_ledger_claimed_sum_counterexample :
    ((open_position (freshWallet 1000) "p1" "B-BTC_USDT" Side.long
        100 5 100 5 98 104).2.balance
      + (open_position (freshWallet 1000) "p1" "B-BTC_USDT" Side.long
        100 5 100 5 98 104).2.locked_margin)
    - ((open_position (freshWallet 1000) "p1" "B-BTC_USDT" Side.long
        100 5 100 5 98 104).2.initial_balance
      + (open_position (freshWallet 1000) "p1" "B-BTC_USDT" Side.long
        100 5 100 5 98 104).2.total_pnl)
    ≠ sumMargins (open_position (freshWallet 1000) "p1" "B-BTC_USDT" Side.long
        100 5 100 5 98 104).2.positions := by
  norm_num [open_position, freshWallet, upsert, sumMargins]

/-- C1 witness: the amended invariant evaluated on the concrete reachable
wallet holding one open position of margin 100. -/
theorem wallet_ledger_invariant_witness :
    (open_position (freshWallet 1000) "p1" "B-BTC_USDT" Side.long
        100 5 100 5 98 104).2.balance
      + (open_position (freshWallet 1000) "p1" "B-BTC_USDT" Side.long
        100 5 100 5 98 104).2.locked_margin
      = (open_position (freshWallet 1000) "p1" "B-BTC_USDT" Side.long
        100 5 100 5 98 104).2.initial_balance
      + (open_position (freshWallet 1000) "p1" "B-BTC_USDT" Side.long
        100 5 100 5 98 104).2.total_pnl ∧
    (open_position (freshWallet 1000) "p1" "B-BTC_USDT" Side.long
        100 5 100 5 98 104).2.locked_margin
      = sumMargins (open_position (freshWallet 1000) "p1" "B-BTC_USDT" Side.long
        100 5 100 5 98 104).2.positions :=
  wallet_ledger_invariant _
    (Reachable.openStep (freshWallet 1000) "p1" "B-BTC_USDT" Side.long
      100 5 100 5 98 104 (Reachable.init 1000) (by simp [freshWallet]))

/-- C4: one trading cycle started below the cap opens a position for every
qualifying scanned pair without re-checking the open-position count, so
with max_open_positions = 1 and two pairs signalling in the same cycle the
dry-run wallet ends the cycle with 2 open positions — the configured cap
is exceeded. -/
theorem trading_cycle_exceeds_cap :
    paramsC4.max_open_positions = 1 ∧
    (freshWallet 1000).positions.length = 0 ∧
    (trading_cycle paramsC4 cfgC4 false sigsC4 (freshWallet 1000)).positions.length = 2 := by
  refine ⟨rfl, rfl, ?_⟩
  norm_num [trading_cycle, scan_for_signals, evaluate_signal, execute_trade,
    open_position_with_tp_sl, calculate_position_size, calculate_tp_sl_prices,
    atrUsable, open_position, has_position_for_pair, freshWallet, upsert,
    paramsC4, cfgC4, sigsC4]
  decide

/-- C2: closing an open position at exit price x realizes
pnl = (x − entry) × size for a long and (entry − x) × size for a short,
credits the balance by exactly margin + pnl, debits the locked margin by
exactly the position's margin, and appends a close record to the trade
history. -/
theorem close_position_spec (w : Wallet) (pid : String) (x : ℚ)
    (reason : String) (pos : Position) (h : findPos w pid = some pos) :
    (close_position w pid x reason).2.balance
      = w.balance + pos.margin + sidePnl pos.side pos.entry_price pos.size x ∧
    (close_position w pid x reason).2.locked_margin
      = w.locked_margin - pos.margin ∧
    (close_position w pid x reason).2.trade_history
      = w.trade_history ++
        [TradeRecord.closeRec pid pos.pair pos.side pos.entry_price x pos.size
          (sidePnl pos.side pos.entry_price pos.size x)
          (if pos.margin > 0
            then sidePnl pos.side pos.entry_price pos.size x / pos.margin * 100
            else 0)
          reason] ∧
    sidePnl Side.long pos.entry_price pos.size x
      = (x - pos.entry_price) * pos.size ∧
    sidePnl Side.short pos.entry_price pos.size x
      = (pos.entry_price - x) * pos.size := by
  simp only [close_position, h]
  exact ⟨trivial, trivial, trivial, rfl, rfl⟩

/-- A long position with entry 100, size 2 and margin 40, for the concrete
close example of the spec. -/
def posC2 : Position :=
  { position_id := "p1", pair := "B-BTC_USDT", side := .long,
    entry_price := 100, current_price := 100, size := 2, margin := 40,
    leverage := 5, stop_loss := 98, take_profit := 104, pnl := 0,
    pnl_percent := 0 }

/-- A wallet holding posC2 with 960 available and 40 locked. -/
def wC2 : Wallet :=
  { initial_balance := 1000, balance := 960, locked_margin := 40,
    total_pnl := 0, positions := [posC2], trade_history := [] }

/-- C2 witness: closing the long entry=100, size=2, margin=40 at 110 gives
pnl 20, credits the balance by 60 and releases the 40 margin. -/
theorem close_position_spec_witness :
    findPos wC2 "p1" = some posC2 ∧
    (close_position wC2 "p1" 110 "TP reached").2.balance = 960 + 40 + 20 ∧
    (close_position wC2 "p1" 110 "TP reached").2.locked_margin = 40 - 40 := by
  have h : findPos wC2 "p1" = some posC2 := rfl
  have hs := close_position_spec wC2 "p1" 110 "TP reached" posC2 h
  refine ⟨h, ?_, ?_⟩
  · rw [hs.1]; norm_num [wC2, posC2, sidePnl]
  · rw [hs.2.1]; norm_num [wC2, posC2]

/-- C3: open_position with a requested margin above the available balance
returns False with the wallet completely unchanged; with margin at most
the balance it returns True, debits exactly the margin from the balance
and credits exactly the margin to the locked margin. -/
theorem open_position_spec (w : Wallet) (pid pair : String) (side : Side)
    (e s m lev sl tp : ℚ) :
    (w.balance < m →
      open_position w pid pair side e s m lev sl tp = (false, w)) ∧
    (m ≤ w.balance →
      (open_position w pid pair side e s m lev sl tp).1 = true ∧
      (open_position w pid pair side e s m lev sl tp).2.balance
        = w.balance - m ∧
      (open_position w pid pair side e s m lev sl tp).2.locked_margin
        = w.locked_margin + m) := by
  constructor
  · intro h
    rw [open_position, if_pos h]
  · intro h
    rw [open_position, if_neg (not_lt.mpr h)]
    exact ⟨rfl, rfl, rfl⟩

/-- C3 witness: on a fresh wallet of 100, a margin of 200 is refused with
no state change, and a margin of 50 is debited exactly. -/
theorem open_position_spec_witness :
    ((freshWallet 100).balance < 200 ∧
      open_position (freshWallet 100) "p1" "B-BTC_USDT" Side.long 10 1 200 5 9 12
        = (false, freshWallet 100)) ∧
    ((50:ℚ) ≤ (freshWallet 100).balance ∧
      (open_position (freshWallet 100) "p1" "B-BTC_USDT" Side.long 10 1 50 5 9 12).2.balance
        = (freshWallet 100).balance - 50) := by
  constructor
  · have hlt : (freshWallet 100).balance < 200 := by norm_num [freshWallet]
    exact ⟨hlt,
      (open_position_spec (freshWallet 100) "p1" "B-BTC_USDT" Side.long
        10 1 200 5 9 12).1 hlt⟩
  · have hle : (50:ℚ) ≤ (freshWallet 100).balance := by norm_num [freshWallet]
    exact ⟨hle,
      ((open_position_spec (freshWallet 100) "p1" "B-BTC_USDT" Side.long
        10 1 50 5 9 12).2 hle).2.1⟩

/-- C9: update_position_price leaves the wallet's balance, locked margin,
total P&L, initial balance and trade history untouched, keeps every
position with a different id exactly as it was, and changes at most the
current_price, pnl and pnl_percent fields of the addressed position (all
its other fields are preserved). -/
theorem update_position_price_frame (w : Wallet) (pid : String) (price : ℚ) :
    (update_position_price w pid price).balance = w.balance ∧
    (update_position_price w pid price).locked_margin = w.locked_margin ∧
    (update_position_price w pid price).total_pnl = w.total_pnl ∧
    (update_position_price w pid price).initial_balance = w.initial_balance ∧
    (update_position_price w pid price).trade_history = w.trade_history ∧
    (∀ p ∈ w.positions, p.position_id ≠ pid →
      p ∈ (update_position_price w pid price).positions) ∧
    (∀ p' ∈ (update_position_price w pid price).positions,
      ∃ p ∈ w.positions, p'.position_id = p.position_id ∧ p'.pair = p.pair ∧
        p'.side = p.side ∧ p'.entry_price = p.entry_price ∧ p'.size = p.size ∧
        p'.margin = p.margin ∧ p'.leverage = p.leverage ∧
        p'.stop_loss = p.stop_loss ∧ p'.take_profit = p.take_profit) := by
  unfold update_position_price
  split
  · exact ⟨rfl, rfl, rfl, rfl, rfl, fun p hp _ => hp,
      fun p' hp' => ⟨p', hp', rfl, rfl, rfl, rfl, rfl, rfl, rfl, rfl, rfl⟩⟩
  · refine ⟨rfl, rfl, rfl, rfl, rfl, ?_, ?_⟩
    · intro p hp hne
      simp only [List.mem_map]
      exact ⟨p, hp, by simp [hne]⟩
    · intro p' hp'
      simp only [List.mem_map] at hp'
      obtain ⟨p, hp, hfp⟩ := hp'
      by_cases hid : p.position_id = pid
      · subst hfp
        exact ⟨p, hp, by simp [hid]⟩
      · subst hfp
        exact ⟨p, hp, by simp [hid]⟩

/-- A second open position, untouched by the C9 witness price update. -/
def posC9 : Position :=
  { position_id := "p2", pair := "B-ETH_USDT", side := .short,
    entry_price := 50, current_price := 50, size := 4, margin := 40,
    leverage := 5, stop_loss := 52, take_profit := 47, pnl := 0,
    pnl_percent := 0 }

/-- A wallet holding posC2 and posC9 for the C9 witness. -/
def wC9 : Wallet :=
  { initial_balance := 1000, balance := 920, locked_margin := 80,
    total_pnl := 0, positions := [posC2, posC9], trade_history := [] }

/-- C9 witness: updating the price of position p1 leaves the balance and
the unrelated position p2 unchanged. -/
theorem update_position_price_frame_witness :
    (update_position_price wC9 "p1" 105).balance = wC9.balance ∧
    posC9 ∈ wC9.positions ∧ posC9.position_id ≠ "p1" ∧
    posC9 ∈ (update_position_price wC9 "p1" 105).positions := by
  have h := update_position_price_frame wC9 "p1" 105
  have hmem : posC9 ∈ wC9.positions :=
    List.mem_cons_of_mem posC2 (List.mem_cons_self posC9 [])
  have hne : posC9.position_id ≠ "p1" := by simp [posC9]
  exact ⟨h.1, hmem, hne, h.2.2.2.2.2.1 posC9 hmem hne⟩

/-- A long position whose stored levels satisfy both trigger conditions at
price 15: take profit 10 (price ≥ TP) and stop loss 20 (price ≤ SL). -/
def posC10 : Position :=
  { position_id := "p1", pair := "B-BTC_USDT", side := .long,
    entry_price := 12, current_price := 12, size := 1, margin := 12,
    leverage := 1, stop_loss := 20, take_profit := 10, pnl := 0,
    pnl_percent := 0 }

/-- C10: when both stored levels fire at the same price (long: price at or
above take_profit and at or below stop_loss; short mirrored; both levels
positive), check_tp_sl_hit returns TP — the take-profit check runs before
the stop-loss check for both sides. -/
theorem check_tp_sl_priority (pos : Position) (price : ℚ)
    (htp : 0 < pos.take_profit) (hsl : 0 < pos.stop_loss) :
    (pos.side = Side.long → pos.take_profit ≤ price → price ≤ pos.stop_loss →
      check_tp_sl_hit pos price = some "TP") ∧
    (pos.side = Side.short → price ≤ pos.take_profit → pos.stop_loss ≤ price →
      check_tp_sl_hit pos price = some "TP") := by
  constructor
  · intro hside h1 h2
    simp only [check_tp_sl_hit, hside]
    rw [if_pos ⟨htp, h1⟩]
  · intro hside h1 h2
    simp only [check_tp_sl_hit, hside]
    rw [if_pos ⟨htp, h1⟩]

/-- C10 witness: the long position with TP 10 and SL 20 evaluated at price
15 satisfies both trigger conditions and check_tp_sl_hit answers TP. -/
theorem check_tp_sl_priority_witness :
    0 < posC10.take_profit ∧ 0 < posC10.stop_loss ∧
    posC10.side = Side.long ∧ posC10.take_profit ≤ 15 ∧
    (15:ℚ) ≤ posC10.stop_loss ∧
    check_tp_sl_hit posC10 15 = some "TP" := by
  refine ⟨by norm_num [posC10], by norm_num [posC10], rfl,
    by norm_num [posC10], by norm_num [posC10], ?_⟩
  exact (check_tp_sl_priority posC10 15 (by norm_num [posC10])
    (by norm_num [posC10])).1 rfl (by norm_num [posC10]) (by norm_num [posC10])

/-- C5: with balance b, price p, leverage L, max position percent m and
signal strength k, the size computed on the open path (which passes the
adjusted percent m × k to calculate_position_size) is b × (m × k)/100 × L / p;
the worked example 1000, 5x, 10 percent, price 100, strength 1 gives 5;
the size scales linearly in the strength (so a weak positive strength
shrinks the size proportionally), is strictly positive for positive
inputs (hence not rejected by the size ≤ 0 gate), and the open-path
result records exactly this size. -/
theorem position_size_spec (b p L m k : ℚ) (cfg : RiskConfig) (pair : String)
    (side : Side) (atr : Option ℚ) (w w1 : Wallet) (r : OpenResult) :
    calculate_position_size b p L (m * k) = b * (m * k / 100) * L / p ∧
    calculate_position_size 1000 100 5 (10 * 1) = 5 ∧
    calculate_position_size b p L (m * k) = k * calculate_position_size b p L m ∧
    (0 < b → 0 < p → 0 < L → 0 < m → 0 < k →
      0 < calculate_position_size b p L (m * k)) ∧
    (open_position_with_tp_sl cfg pair side b p k atr w = (some r, w1) →
      r.position_size = calculate_position_size b p cfg.leverage
        (cfg.max_position_size_percent * k)) := by
  refine ⟨rfl, by norm_num [calculate_position_size], ?_, ?_, ?_⟩
  · unfold calculate_position_size
    ring
  · intro hb hp hL hm hk
    unfold calculate_position_size
    positivity
  · intro h
    simp only [open_position_with_tp_sl] at h
    split_ifs at h with h1 h2
    · exact absurd h (by simp)
    · exact absurd h (by simp)
    · rcases hop : open_position w ("sim-pos-" ++ pair) pair side p
          (calculate_position_size b p cfg.leverage (cfg.max_position_size_percent * k))
          (calculate_position_size b p cfg.leverage (cfg.max_position_size_percent * k) * p / cfg.leverage)
          cfg.leverage
          (calculate_tp_sl_prices cfg p side cfg.take_profit_percent cfg.stop_loss_percent atr).2
          (calculate_tp_sl_prices cfg p side cfg.take_profit_percent cfg.stop_loss_percent atr).1
        with ⟨ok, w2⟩
      rw [hop] at h
      cases ok
      · exact absurd h (by simp)
      · simp only [Prod.mk.injEq, Option.some.injEq] at h
        rw [← h.1]

/-- Risk configuration for the concrete sizing example: leverage 5, max
position percent 10, percentage stops 4/2. -/
def cfgC5 : RiskConfig :=
  { leverage := 5, max_position_size_percent := 10, take_profit_percent := 4,
    stop_loss_percent := 2, use_atr_stop_loss := false,
    atr_stop_loss_multiplier := 3/2, atr_take_profit_multiplier := 3,
    trailing_stop := false, trailing_stop_percent := 3/2 }

/-- The open-path result for balance 1000, price 100, strength 1 under
cfgC5: size 5, margin 100, TP 104, SL 98. -/
def rC5 : OpenResult :=
  { position_id := "sim-pos-" ++ "B-BTC_USDT", entry_price := 100,
    position_size := 5, take_profit := 104, stop_loss := 98,
    side := .long, pair := "B-BTC_USDT", margin := 100 }

/-- The wallet after the concrete open of rC5 from a fresh 1000 wallet. -/
def wC5 : Wallet :=
  { initial_balance := 1000, balance := 900, locked_margin := 100,
    total_pnl := 0,
    positions :=
      [{ position_id := "sim-pos-" ++ "B-BTC_USDT", pair := "B-BTC_USDT",
         side := .long, entry_price := 100, current_price := 100, size := 5,
         margin := 100, leverage := 5, stop_loss := 98, take_profit := 104,
         pnl := 0, pnl_percent := 0 }],
    trade_history :=
      [TradeRecord.openRec ("sim-pos-" ++ "B-BTC_USDT") "B-BTC_USDT"
        Side.long 100 5 100] }

/-- C5 witness: the worked example balance 1000, leverage 5, max percent
10, price 100, strength 1 sizes to 5 units, positive, and the open path
records that size. -/
theorem position_size_spec_witness :
    (0:ℚ) < 1000 ∧ (0:ℚ) < 100 ∧ (0:ℚ) < 5 ∧ (0:ℚ) < 10 ∧ (0:ℚ) < 1 ∧
    0 < calculate_position_size 1000 100 5 (10 * 1) ∧
    open_position_with_tp_sl cfgC5 "B-BTC_USDT" Side.long 1000 100 1 none
      (freshWallet 1000) = (some rC5, wC5) ∧
    rC5.position_size = calculate_position_size 1000 100 cfgC5.leverage
      (cfgC5.max_position_size_percent * 1) := by
  have hopen : open_position_with_tp_sl cfgC5 "B-BTC_USDT" Side.long 1000 100 1
      none (freshWallet 1000) = (some rC5, wC5) := by
    norm_num [open_position_with_tp_sl, calculate_position_size,
      calculate_tp_sl_prices, atrUsable, open_position, freshWallet, upsert,
      cfgC5, rC5, wC5, Prod.mk.injEq]
  refine ⟨by norm_num, by norm_num, by norm_num, by norm_num, by norm_num,
    ?_, hopen, ?_⟩
  · exact (position_size_spec 1000 100 5 10 1 cfgC5 "B-BTC_USDT" Side.long
      none (freshWallet 1000) wC5 rC5).2.2.2.1
      (by norm_num) (by norm_num) (by norm_num) (by norm_num) (by norm_num)
  · exact (position_size_spec 1000 100 5 10 1 cfgC5 "B-BTC_USDT" Side.long
      none (freshWallet 1000) wC5 rC5).2.2.2.2 hopen

/-- C6: with no ATR value (or with use_atr_stop_loss off), TP/SL pricing
uses the percentage formulas — long TP = e(1 + tp/100), SL = e(1 − sl/100),
short mirrored — and whenever use_atr_stop_loss is configured and a
positive ATR value is supplied, the ATR formulas take precedence: long
SL = e − ATR × sl_multiplier, TP = e + ATR × tp_multiplier, short
mirrored. -/
theorem tp_sl_spec (cfg : RiskConfig) (e t s a : ℚ) :
    calculate_tp_sl_prices cfg e Side.long t s none
      = (e * (1 + t / 100), e * (1 - s / 100)) ∧
    calculate_tp_sl_prices cfg e Side.short t s none
      = (e * (1 - t / 100), e * (1 + s / 100)) ∧
    (cfg.use_atr_stop_loss = false →
      calculate_tp_sl_prices cfg e Side.long t s (some a)
        = (e * (1 + t / 100), e * (1 - s / 100)) ∧
      calculate_tp_sl_prices cfg e Side.short t s (some a)
        = (e * (1 - t / 100), e * (1 + s / 100))) ∧
    (cfg.use_atr_stop_loss = true → 0 < a →
      calculate_tp_sl_prices cfg e Side.long t s (some a)
        = (e + a * cfg.atr_take_profit_multiplier,
            e - a * cfg.atr_stop_loss_multiplier) ∧
      calculate_tp_sl_prices cfg e Side.short t s (some a)
        = (e - a * cfg.atr_take_profit_multiplier,
            e + a * cfg.atr_stop_loss_multiplier)) := by
  refine ⟨?_, ?_, fun h => ⟨?_, ?_⟩, fun h ha => ⟨?_, ?_⟩⟩ <;>
    simp [calculate_tp_sl_prices, atrUsable, *]

/-- Percentage-mode risk configuration for the C6 examples. -/
def cfgC6 : RiskConfig :=
  { leverage := 5, max_position_size_percent := 10, take_profit_percent := 4,
    stop_loss_percent := 2, use_atr_stop_loss := false,
    atr_stop_loss_multiplier := 3/2, atr_take_profit_multiplier := 3,
    trailing_stop := false, trailing_stop_percent := 3/2 }

/-- The same configuration with ATR stops enabled. -/
def cfgC6atr : RiskConfig :=
  { cfgC6 with use_atr_stop_loss := true }

/-- C6 witness: entry 100, tp 4 percent, sl 2 percent give long TP 104 /
SL 98 and short TP 96 / SL 102; with ATR stops on and ATR 2 the long gets
TP 106 / SL 97 from the multipliers 3 and 1.5. -/
theorem tp_sl_spec_witness :
    calculate_tp_sl_prices cfgC6 100 Side.long 4 2 none = (104, 98) ∧
    calculate_tp_sl_prices cfgC6 100 Side.short 4 2 none = (96, 102) ∧
    cfgC6atr.use_atr_stop_loss = true ∧ (0:ℚ) < 2 ∧
    calculate_tp_sl_prices cfgC6atr 100 Side.long 4 2 (some 2) = (106, 97) := by
  have h1 := (tp_sl_spec cfgC6 100 4 2 2).1
  have h2 := (tp_sl_spec cfgC6 100 4 2 2).2.1
  have h3 := ((tp_sl_spec cfgC6atr 100 4 2 2).2.2.2 rfl (by norm_num)).1
  refine ⟨?_, ?_, rfl, by norm_num, ?_⟩
  · rw [h1]; norm_num [Prod.mk.injEq]
  · rw [h2]; norm_num [Prod.mk.injEq]
  · rw [h3]; norm_num [cfgC6atr, cfgC6, Prod.mk.injEq]

/-- C7: whenever update_trailing_stop proposes a new stop, the position's
unrealized profit percent strictly exceeds the trailing threshold, and
the proposal tightens the stop relative to any previous non-zero stop:
strictly higher for a long, strictly lower for a short. -/
theorem trailing_stop_spec (cfg : RiskConfig) (pos : Position)
    (price new_sl : ℚ) (h : update_trailing_stop cfg pos price = some new_sl) :
    (pos.side = Side.long →
      (price - pos.entry_price) / pos.entry_price * 100
        > cfg.trailing_stop_percent ∧
      (pos.stop_loss ≠ 0 → new_sl > pos.stop_loss)) ∧
    (pos.side = Side.short →
      (pos.entry_price - price) / pos.entry_price * 100
        > cfg.trailing_stop_percent ∧
      (pos.stop_loss ≠ 0 → new_sl < pos.stop_loss)) := by
  cases hside : pos.side
  case long =>
    refine ⟨fun _ => ?_, fun hcon => Side.noConfusion hcon⟩
    simp only [update_trailing_stop, hside] at h
    split_ifs at h with h1 h2 h3 h4 <;> try exact Option.noConfusion h
    have hval : price * (1 - cfg.trailing_stop_percent / 100) = new_sl :=
      Option.some.inj h
    refine ⟨h3, fun hsl0 => ?_⟩
    rcases h4 with h40 | h4gt
    · exact absurd h40 hsl0
    · rw [← hval]; exact h4gt
  case short =>
    refine ⟨fun hcon => Side.noConfusion hcon, fun _ => ?_⟩
    simp only [update_trailing_stop, hside] at h
    split_ifs at h with h1 h2 h3 h4 <;> try exact Option.noConfusion h
    have hval : price * (1 + cfg.trailing_stop_percent / 100) = new_sl :=
      Option.some.inj h
    refine ⟨h3, fun hsl0 => ?_⟩
    rcases h4 with h40 | h4lt
    · exact absurd h40 hsl0
    · rw [← hval]; exact h4lt

/-- Risk configuration with trailing stops enabled at 1.5 percent. -/
def cfgC7 : RiskConfig :=
  { leverage := 5, max_position_size_percent := 10, take_profit_percent := 4,
    stop_loss_percent := 2, use_atr_stop_loss := false,
    atr_stop_loss_multiplier := 3/2, atr_take_profit_multiplier := 3,
    trailing_stop := true, trailing_stop_percent := 3/2 }

/-- A long position with entry 100 and existing stop 98 for the trailing
witness. -/
def posC7 : Position :=
  { position_id := "p1", pair := "B-BTC_USDT", side := .long,
    entry_price := 100, current_price := 100, size := 5, margin := 100,
    leverage := 5, stop_loss := 98, take_profit := 104, pnl := 0,
    pnl_percent := 0 }

/-- C7 witness: at price 110 the long with entry 100 is 10 percent in
profit, above the 1.5 percent threshold; the proposed stop 108.35 is
accepted and is strictly above the previous stop 98. -/
theorem trailing_stop_spec_witness :
    update_trailing_stop cfgC7 posC7 110 = some (2167/20) ∧
    (110 - posC7.entry_price) / posC7.entry_price * 100
      > cfgC7.trailing_stop_percent ∧
    (posC7.stop_loss ≠ 0 → (2167:ℚ)/20 > posC7.stop_loss) := by
  have h : update_trailing_stop cfgC7 posC7 110 = some (2167/20) := by
    norm_num [update_trailing_stop, cfgC7, posC7]
  have hs := (trailing_stop_spec cfgC7 posC7 110 (2167/20) h).1 rfl
  exact ⟨h, hs.1, fun hz => hs.2 hz⟩

theorem gainOf_nonneg (d : ℚ) : 0 ≤ gainOf d := by
  unfold gainOf
  split_ifs with h
  · exact le_of_lt h
  · exact le_refl 0

theorem lossOf_nonneg (d : ℚ) : 0 ≤ lossOf d := by
  unfold lossOf
  split_ifs with h
  · linarith
  · exact le_refl 0

theorem gains_nonneg (xs : List ℚ) : ∀ x ∈ gains xs, 0 ≤ x := by
  cases xs with
  | nil => simp [gains]
  | cons a l =>
    intro x hx
    simp only [gains, List.mem_cons, List.mem_map] at hx
    rcases hx with rfl | ⟨d, _, rfl⟩
    · exact le_refl 0
    · exact gainOf_nonneg d

theorem losses_nonneg (xs : List ℚ) : ∀ x ∈ losses xs, 0 ≤ x := by
  cases xs with
  | nil => simp [losses]
  | cons a l =>
    intro x hx
    simp only [losses, List.mem_cons, List.mem_map] at hx
    rcases hx with rfl | ⟨d, _, rfl⟩
    · exact le_refl 0
    · exact lossOf_nonneg d

theorem wilderAvgs_nonneg (period : ℕ) (hp : 1 ≤ period) :
    ∀ (l : List ℚ), (∀ x ∈ l, 0 ≤ x) → ∀ (a : ℚ), 0 ≤ a →
    ∀ y ∈ wilderAvgs period a l, 0 ≤ y := by
  intro l
  induction l with
  | nil =>
    intro _ a ha y hy
    simp only [wilderAvgs, List.mem_singleton] at hy
    rw [hy]
    exact ha
  | cons g gs ih =>
    intro hl a ha y hy
    simp only [wilderAvgs, List.mem_cons] at hy
    rcases hy with rfl | hy
    · exact ha
    · have hg : 0 ≤ g := hl g (List.mem_cons_self g gs)
      have hper : (1:ℚ) ≤ (period:ℚ) := by exact_mod_cast hp
      have ha' : 0 ≤ (a * ((period:ℚ) - 1) + g) / period := by
        apply div_nonneg
        · have := mul_nonneg ha (by linarith : (0:ℚ) ≤ (period:ℚ) - 1)
          linarith
        · linarith
      exact ih (fun x hx => hl x (List.mem_cons_of_mem g hx)) _ ha' y hy

theorem rsiValue_mem_bounds (g l : ℚ) (hg : 0 ≤ g) (hl : 0 ≤ l) (v : ℚ)
    (hv : rsiValue g l = some v) : 0 ≤ v ∧ v ≤ 100 := by
  unfold rsiValue at hv
  split_ifs at hv with h1 h2
  · obtain rfl : (100:ℚ) = v := Option.some.inj hv
    norm_num
  · have hl' : 0 < l := lt_of_le_of_ne hl (Ne.symm h1)
    obtain rfl : 100 - 100 / (1 + g / l) = v := Option.some.inj hv
    have hrs : 0 ≤ g / l := div_nonneg hg hl'.le
    have h100 : 100 / (1 + g / l) ≤ 100 := div_le_self (by norm_num) (by linarith)
    have h0 : 0 ≤ 100 / (1 + g / l) := by positivity
    constructor <;> linarith

theorem zipWith_rsi_bounds :
    ∀ (as bs : List ℚ), (∀ x ∈ as, 0 ≤ x) → (∀ x ∈ bs, 0 ≤ x) →
    ∀ o ∈ List.zipWith rsiValue as bs, ∀ v, o = some v → 0 ≤ v ∧ v ≤ 100 := by
  intro as
  induction as with
  | nil =>
    intro bs _ _ o ho
    simp at ho
  | cons a as ih =>
    intro bs ha hb o ho v hv
    cases bs with
    | nil => simp at ho
    | cons b bs =>
      simp only [List.zipWith_cons_cons, List.mem_cons] at ho
      rcases ho with rfl | ho
      · exact rsiValue_mem_bounds a b (ha a (List.mem_cons_self a as))
          (hb b (List.mem_cons_self b bs)) v hv
      · exact ih bs (fun x hx => ha x (List.mem_cons_of_mem a hx))
          (fun x hx => hb x (List.mem_cons_of_mem b hx)) o ho v hv

/-- C8: every RSI value produced by calculate_rsi lies in the interval
[0, 100] (the undefined NaN of a fully-degenerate window is modelled as
none and is not a produced value), and whenever the smoothed average loss
over a window is 0 while the average gain is not (a non-degenerate,
loss-free window), the RSI formula returns exactly 100. -/
theorem rsi_in_range (period : ℕ) (xs : List ℚ) (hp : 0 < period) :
    (∀ o ∈ calculate_rsi period xs, ∀ v, o = some v → 0 ≤ v ∧ v ≤ 100) ∧
    (∀ avg_gain avg_loss : ℚ, avg_loss = 0 → avg_gain ≠ 0 →
      rsiValue avg_gain avg_loss = some 100) := by
  constructor
  · intro o ho v hv
    unfold calculate_rsi at ho
    split_ifs at ho with hlen
    · simp at ho
    · refine zipWith_rsi_bounds _ _ ?_ ?_ o ho v hv
      · refine wilderAvgs_nonneg period hp _
          (fun x hx => gains_nonneg xs x (List.mem_of_mem_drop hx)) _ ?_
        exact div_nonneg
          (List.sum_nonneg (fun x hx => gains_nonneg xs x (List.mem_of_mem_take hx)))
          (by positivity)
      · refine wilderAvgs_nonneg period hp _
          (fun x hx => losses_nonneg xs x (List.mem_of_mem_drop hx)) _ ?_
        exact div_nonneg
          (List.sum_nonneg (fun x hx => losses_nonneg xs x (List.mem_of_mem_take hx)))
          (by positivity)
  · intro g l hl hg
    simp [rsiValue, hl, hg]

/-- C8 witness: the strictly rising series 1, 2, 3 with period 2 has zero
average loss and positive average gain, so calculate_rsi produces the
value 100, which the range theorem confirms lies in [0, 100]. -/
theorem rsi_in_range_witness :
    0 < 2 ∧ some (100:ℚ) ∈ calculate_rsi 2 [1, 2, 3] ∧
    (0:ℚ) ≤ 100 ∧ (100:ℚ) ≤ 100 := by
  have hmem : some (100:ℚ) ∈ calculate_rsi 2 [1, 2, 3] := by
    norm_num [calculate_rsi, gains, losses, deltas, gainOf, lossOf,
      wilderAvgs, rsiValue, List.zipWith_cons_cons]
  have h := (rsi_in_range 2 [1, 2, 3] (by norm_num)).1 (some 100) hmem 100 rfl
  exact ⟨by norm_num, hmem, h.1, h.2⟩

end AlgoTrader
